import Mathlib

/-!
Verification development for the `httpbridge` lambda HTTP translation layer.

The Go sources are shallowly embedded:
* Go `map[string][]string` / `http.Header` values become association lists
  (`List (String × List String)`); Go map iteration is folded in list order
  (map iteration order is irrelevant to every property proved here because
  each source loop treats keys independently).
* Go byte strings (`[]byte`, `bytes.Buffer`, and `string` used as a byte
  carrier for bodies) become `List UInt8`.
* Go `nil` maps and `nil` readers are modelled with `Option` / a dedicated
  constructor, and an operation that would panic at runtime (assignment to
  an entry of a nil map, reading from a nil reader) returns `none`.
* External stdlib functions whose return value no property depends on
  (`http.DetectContentType`, `http.StatusText`, `url.Values.Encode`) are
  kept abstract as fields of a `GoLib` record, so every theorem quantifies
  over them.
-/

namespace HTTPBridge

/-- Go's `textproto` token table: bytes valid inside a MIME header key
(letters, digits and `!#$%&*+-.^_|~` plus the apostrophe and backquote). -/
def validHeaderFieldByte (c : Char) : Bool :=
  let n := c.toNat
  (48 ≤ n && n ≤ 57) || (65 ≤ n && n ≤ 90) || (97 ≤ n && n ≤ 122) ||
  (n == 33 || n == 35 || n == 36 || n == 37 || n == 38 || n == 39 ||
   n == 42 || n == 43 || n == 45 || n == 46 || n == 94 || n == 95 ||
   n == 96 || n == 124 || n == 126)

/-- One step of `textproto` canonicalization: uppercase a lowercase letter
when `upper` is set, lowercase an uppercase letter otherwise. -/
def canonChar (upper : Bool) (c : Char) : Char :=
  if upper && 97 ≤ c.toNat && c.toNat ≤ 122 then Char.ofNat (c.toNat - 32)
  else if !upper && 65 ≤ c.toNat && c.toNat ≤ 90 then Char.ofNat (c.toNat + 32)
  else c

/-- Canonicalize the characters of a header key: the first character and any
character following a hyphen are uppercased, all other letters lowercased. -/
def canonChars : Bool → List Char → List Char
  | _, [] => []
  | upper, c :: rest =>
    let c2 := canonChar upper c
    c2 :: canonChars (c2 == '-') rest

/-- Model of `textproto.CanonicalMIMEHeaderKey` (hence of
`http.CanonicalHeaderKey`): keys containing a byte outside the token table
are returned unchanged, all other keys are case-canonicalized. -/
def canonicalHeaderKey (s : String) : String :=
  if s.data.all validHeaderFieldByte then String.mk (canonChars true s.data)
  else s

/-- A Go `http.Header` (`map[string][]string`): an association list from
header keys to their value lists.  At most one entry per key is maintained
by the operations below, mirroring the Go map. -/
abbrev Header := List (String × List String)

/-- Exact-key lookup in a header map (Go `h[k]`, second return dropped). -/
def headerFind (h : Header) (k : String) : Option (List String) :=
  (h.find? (fun e => e.1 == k)).map (fun e => e.2)

/-- Append one value under an exact key (the tail of `textproto`'s
`MIMEHeader.Add` once the key is canonical): extends the existing entry or
appends a fresh one. -/
def headerAddRaw (h : Header) (k v : String) : Header :=
  match h with
  | [] => [(k, [v])]
  | e :: rest =>
    if e.1 == k then (e.1, e.2 ++ [v]) :: rest
    else e :: headerAddRaw rest k v

/-- Model of `http.Header.Add`: canonicalize the key, then append. -/
def headerAdd (h : Header) (k v : String) : Header :=
  headerAddRaw h (canonicalHeaderKey k) v

/-- Plain Go map assignment `h[k] = vs` on a non-nil map: replace the entry
for the exact key, or append a fresh one. -/
def headerSetRaw (h : Header) (k : String) (vs : List String) : Header :=
  match h with
  | [] => [(k, vs)]
  | e :: rest =>
    if e.1 == k then (k, vs) :: rest
    else e :: headerSetRaw rest k vs

/-- Model of `http.Header.Set`: canonicalize the key, store a single value. -/
def headerSet (h : Header) (k v : String) : Header :=
  headerSetRaw h (canonicalHeaderKey k) [v]

/-- Model of `http.Header.Get`: canonicalize the key, return the first value
of its entry, or `""` when the key is absent or has no values. -/
def headerGet (h : Header) (k : String) : String :=
  match headerFind h (canonicalHeaderKey k) with
  | some (v :: _) => v
  | _ => ""

/-- `setCookieHeader = http.CanonicalHeaderKey("set-cookie")` (part_001). -/
def setCookieHeader : String := canonicalHeaderKey "set-cookie"

/-- `contentTypeHeader = http.CanonicalHeaderKey("content-type")` (part_001). -/
def contentTypeHeader : String := canonicalHeaderKey "content-type"

/-- `transferEncodingHeader = http.CanonicalHeaderKey("transfer-encoding")`. -/
def transferEncodingHeader : String := canonicalHeaderKey "transfer-encoding"

/-- `hostHeader = http.CanonicalHeaderKey("host")` (requests.go). -/
def hostHeader : String := canonicalHeaderKey "host"

/-- `mimeTypeApplicationOctetStream` constant from part_001. -/
def mimeTypeApplicationOctetStream : String := "application/octet-stream"

/-- Character of the standard base64 alphabet at index `n` (as a byte). -/
def b64Char (n : Nat) : UInt8 :=
  if n < 26 then UInt8.ofNat (65 + n)
  else if n < 52 then UInt8.ofNat (97 + (n - 26))
  else if n < 62 then UInt8.ofNat (48 + (n - 52))
  else if n == 62 then 43
  else 47

/-- Standard base64 (RFC 4648, `base64.StdEncoding`) encoding of a byte
sequence, producing the ASCII bytes of the encoded text, `=` padded. -/
def base64Encode : List UInt8 → List UInt8
  | [] => []
  | [a] =>
    [b64Char (a.toNat / 4), b64Char (a.toNat % 4 * 16), 61, 61]
  | [a, b] =>
    [b64Char (a.toNat / 4), b64Char (a.toNat % 4 * 16 + b.toNat / 16),
     b64Char (b.toNat % 16 * 4), 61]
  | a :: b :: c :: rest =>
    b64Char (a.toNat / 4) :: b64Char (a.toNat % 4 * 16 + b.toNat / 16) ::
    b64Char (b.toNat % 16 * 4 + c.toNat / 64) :: b64Char (c.toNat % 64) ::
    base64Encode rest

/-- Value of a standard base64 alphabet byte, `none` for bytes outside it. -/
def b64Val (c : UInt8) : Option Nat :=
  let n := c.toNat
  if 65 ≤ n && n ≤ 90 then some (n - 65)
  else if 97 ≤ n && n ≤ 122 then some (n - 97 + 26)
  else if 48 ≤ n && n ≤ 57 then some (n - 48 + 52)
  else if n == 43 then some 62
  else if n == 47 then some 63
  else none

/-- Standard base64 decoding (`base64.StdEncoding`, non-strict: padding bits
are not checked) of the ASCII bytes of an encoded text. -/
def base64Decode : List UInt8 → Option (List UInt8)
  | [] => some []
  | a :: b :: c :: d :: rest =>
    match b64Val a, b64Val b with
    | some va, some vb =>
      if c == 61 && d == 61 then
        if rest.isEmpty then some [UInt8.ofNat (va * 4 + vb / 16)] else none
      else if d == 61 then
        match b64Val c with
        | some vc =>
          if rest.isEmpty then
            some [UInt8.ofNat (va * 4 + vb / 16),
                  UInt8.ofNat (vb % 16 * 16 + vc / 4)]
          else none
        | none => none
      else
        match b64Val c, b64Val d with
        | some vc, some vd =>
          match base64Decode rest with
          | some tail =>
            some (UInt8.ofNat (va * 4 + vb / 16) ::
                  UInt8.ofNat (vb % 16 * 16 + vc / 4) ::
                  UInt8.ofNat (vc % 4 * 64 + vd) :: tail)
          | none => none
        | _, _ => none
    | _, _ => none
  | _ => none

/-- A Go `io.Reader` as the bridge builds them: the nil interface value, a
`strings.NewReader` over body bytes, or a `base64.NewDecoder` wrapper. -/
inductive GoReader where
  | nilReader : GoReader
  | stringReader (s : List UInt8) : GoReader
  | base64Decoder (inner : GoReader) : GoReader
deriving DecidableEq, Repr

/-- What draining a `GoReader` yields: `none` models a runtime panic (a read
through the nil interface value) or a base64 decode error. -/
def readAll : GoReader → Option (List UInt8)
  | .nilReader => none
  | .stringReader s => some s
  | .base64Decoder inner =>
    match readAll inner with
    | some bs => base64Decode bs
    | none => none

/-- Abstracted Go stdlib functions the bridge calls but whose return values
no verified property depends on. Every theorem quantifies over a `GoLib`. -/
structure GoLib where
  /-- `http.DetectContentType` (content sniffing of the first write). -/
  sniff : List UInt8 → String
  /-- `http.StatusText` (numeric status code to reason phrase). -/
  statusText : Int → String
  /-- `url.Values.Encode` (sorted, percent-encoded query serialization). -/
  urlValuesEncode : List (String × List String) → String

/-- A concrete `GoLib` instance used by witnesses. -/
def trivialGoLib : GoLib :=
  { sniff := fun _ => "text/plain; charset=utf-8"
    statusText := fun _ => ""
    urlValuesEncode := fun _ => "" }

/-- `lambdaHTTPResponseWriter` (part_001): the response capture buffer.
`preparedResponse` is carried separately where needed. -/
structure LambdaHTTPResponseWriter where
  header : Header
  body : List UInt8
  statusCode : Int
deriving DecidableEq, Repr

/-- A freshly allocated `&lambdaHTTPResponseWriter{}`: empty header map
(nil and empty Go maps are indistinguishable to every operation used),
empty body buffer, status code 0 (the unset sentinel). -/
def emptyWriter : LambdaHTTPResponseWriter :=
  { header := [], body := [], statusCode := 0 }

/-- `writeHeaderLine` (part_001 lines 42-56): on the first finalizing call
(status still 0) fix the status to 200 and, when neither a content-type
entry exists nor a transfer-encoding value is set, sniff a content type
from the written data (skipped when the Go byte slice is nil).
`data = none` models a nil `[]byte`. -/
def writeHeaderLine (lib : GoLib) (l : LambdaHTTPResponseWriter)
    (data : Option (List UInt8)) : LambdaHTTPResponseWriter :=
  if l.statusCode ≠ 0 then l
  else
    let l := { l with statusCode := 200 }
    let header := l.header
    let hasType := (headerFind header contentTypeHeader).isSome
    let hasTE := headerGet header transferEncodingHeader ≠ ""
    let header :=
      if !hasType && !hasTE then
        match data with
        | some d => headerSet header contentTypeHeader (lib.sniff d)
        | none => header
      else header
    { l with header := header }

/-- `lambdaHTTPResponseWriter.Write` (part_001 lines 58-66): run the header
line logic on the data, then append the bytes to the body buffer. -/
def writerWrite (lib : GoLib) (l : LambdaHTTPResponseWriter)
    (data : Option (List UInt8)) : LambdaHTTPResponseWriter :=
  let l := writeHeaderLine lib l data
  { l with body := l.body ++ data.getD [] }

/-- `lambdaHTTPResponseWriter.WriteHeader` (part_001 lines 68-73): set the
status code only if it is still the 0 sentinel. -/
def writerWriteHeader (l : LambdaHTTPResponseWriter) (statusCode : Int) :
    LambdaHTTPResponseWriter :=
  if l.statusCode ≠ 0 then l
  else { l with statusCode := statusCode }

/-- `lambdaHTTPResponseWriter.Flush` (part_001 lines 75-80): finalize the
status to 200 when still unset, with no content sniffing. -/
def writerFlush (l : LambdaHTTPResponseWriter) : LambdaHTTPResponseWriter :=
  if l.statusCode ≠ 0 then l
  else writerWriteHeader l 200

/-- One call a handler can make into the capture buffer. -/
inductive WriterOp where
  | setStatus (code : Int) : WriterOp
  | write (data : Option (List UInt8)) : WriterOp
  | flush : WriterOp
deriving DecidableEq, Repr

/-- Execute one capture-buffer call. -/
def execOp (lib : GoLib) (l : LambdaHTTPResponseWriter) :
    WriterOp → LambdaHTTPResponseWriter
  | .setStatus code => writerWriteHeader l code
  | .write data => writerWrite lib l data
  | .flush => writerFlush l

/-- Execute a sequence of capture-buffer calls in order. -/
def execOps (lib : GoLib) (l : LambdaHTTPResponseWriter)
    (ops : List WriterOp) : LambdaHTTPResponseWriter :=
  ops.foldl (execOp lib) l

/-- The bytes a sequence of calls appends to the body buffer. -/
def writtenBytes : List WriterOp → List UInt8
  | [] => []
  | .write data :: rest => data.getD [] ++ writtenBytes rest
  | _ :: rest => writtenBytes rest

/-- `events.APIGatewayV2HTTPResponse` (only fields the bridge touches).
`multiValueHeaders = none` models the nil Go map; the V2 transcoder never
populates it.  `body` carries the bytes of the Go string. -/
structure APIGatewayV2Response where
  statusCode : Int
  headers : List (String × String)
  multiValueHeaders : Option (List (String × List String))
  body : List UInt8
  isBase64Encoded : Bool
  cookies : List String
deriving DecidableEq, Repr

/-- `events.APIGatewayProxyResponse` (only fields the bridge touches). -/
structure APIGatewayV1Response where
  statusCode : Int
  headers : List (String × String)
  multiValueHeaders : Option (List (String × List String))
  body : List UInt8
  isBase64Encoded : Bool
deriving DecidableEq, Repr

/-- `events.ALBTargetGroupResponse` (only fields the bridge touches). -/
structure ALBResponse where
  statusCode : Int
  statusDescription : String
  headers : List (String × String)
  multiValueHeaders : Option (List (String × List String))
  body : List UInt8
  isBase64Encoded : Bool
deriving DecidableEq, Repr

/-- `leastCommonDenominatorResponse` (part_001 lines 168-172). -/
structure LeastCommonDenominatorResponse where
  statusCode : Int
  body : List UInt8
  isBase64Encoded : Bool
deriving DecidableEq, Repr

/-- A fresh `&apiGatewayV2Response{}` (all zero values, maps nil). -/
def emptyV2Response : APIGatewayV2Response :=
  { statusCode := 0, headers := [], multiValueHeaders := none, body := [],
    isBase64Encoded := false, cookies := [] }

/-- A fresh `&apiGatewayV1Response{}` (all zero values, maps nil). -/
def emptyV1Response : APIGatewayV1Response :=
  { statusCode := 0, headers := [], multiValueHeaders := none, body := [],
    isBase64Encoded := false }

/-- A fresh `&albResponse{}` (all zero values, maps nil). -/
def emptyALBResponse : ALBResponse :=
  { statusCode := 0, statusDescription := "", headers := [],
    multiValueHeaders := none, body := [], isBase64Encoded := false }

/-- Assignment `m[k] = v` on a string-valued response header map. -/
def mapAssignSingle (m : List (String × String)) (k v : String) :
    List (String × String) :=
  match m with
  | [] => [(k, v)]
  | e :: rest => if e.1 == k then (k, v) :: rest else e :: mapAssignSingle rest k v

/-- The header loop shared verbatim by `apiGatewayV1Response.TranscodeFrom`
and `albResponse.TranscodeFrom` (part_001 lines 108-114 and 131-137): a key
with more than one value is assigned into `MultiValueHeaders` — which
panics (`none`) when that map is still nil — a key with exactly one value
is assigned into `Headers`, and a key with no values is skipped. -/
def placeHeaders : Header → List (String × String) →
    Option (List (String × List String)) →
    Option (List (String × String) × Option (List (String × List String)))
  | [], hs, ms => some (hs, ms)
  | (k, vs) :: rest, hs, ms =>
    if vs.length > 1 then
      match ms with
      | none => none
      | some m => placeHeaders rest hs (some (headerSetRaw m k vs))
    else if vs.length == 1 then
      placeHeaders rest (mapAssignSingle hs k (vs.headD "")) ms
    else placeHeaders rest hs ms

/-- The header loop of `apiGatewayV2Response.TranscodeFrom` (part_001 lines
85-92): values of the reserved `Set-Cookie` key are appended to the cookie
list, every other key is assigned into `Headers` with its values joined by
`","`. -/
def collectV2Headers : Header → List (String × String) → List String →
    List (String × String) × List String
  | [], hs, cs => (hs, cs)
  | (k, vs) :: rest, hs, cs =>
    if k == setCookieHeader then collectV2Headers rest hs (cs ++ vs)
    else collectV2Headers rest (mapAssignSingle hs k (String.intercalate "," vs)) cs

/-- `apiGatewayV2Response.TranscodeFrom` (part_001 lines 82-103): copy the
status, rebuild `Headers` (extracting cookies), then emit the body as
base64 with the flag set when the content type is the octet-stream MIME
type, and as text otherwise. -/
def apiGatewayV2TranscodeFrom (r : APIGatewayV2Response)
    (w : LambdaHTTPResponseWriter) : APIGatewayV2Response :=
  let r := { r with statusCode := w.statusCode, headers := [] }
  let (hs, cs) := collectV2Headers w.header r.headers r.cookies
  let r := { r with headers := hs, cookies := cs }
  let contentType := headerGet w.header contentTypeHeader
  let body := w.body
  if contentType == mimeTypeApplicationOctetStream then
    { r with body := base64Encode body, isBase64Encoded := true }
  else
    { r with body := body }

/-- `apiGatewayV1Response.TranscodeFrom` (part_001 lines 105-125): copy the
status, place headers into the single/multi-value maps (panicking — `none`
— on a multi-valued key because `MultiValueHeaders` is never allocated),
then emit the body under the octet-stream rule. -/
def apiGatewayV1TranscodeFrom (r : APIGatewayV1Response)
    (w : LambdaHTTPResponseWriter) : Option APIGatewayV1Response :=
  let r := { r with statusCode := w.statusCode, headers := [] }
  match placeHeaders w.header r.headers r.multiValueHeaders with
  | none => none
  | some (hs, ms) =>
    let r := { r with headers := hs, multiValueHeaders := ms }
    let contentType := headerGet w.header contentTypeHeader
    let body := w.body
    if contentType == mimeTypeApplicationOctetStream then
      some { r with body := base64Encode body, isBase64Encoded := true }
    else
      some { r with body := body }

/-- `albResponse.TranscodeFrom` (part_001 lines 127-148): as the V1
transcoder, additionally deriving `StatusDescription` from the status. -/
def albTranscodeFrom (lib : GoLib) (r : ALBResponse)
    (w : LambdaHTTPResponseWriter) : Option ALBResponse :=
  let r := { r with statusCode := w.statusCode,
                    statusDescription := lib.statusText w.statusCode,
                    headers := [] }
  match placeHeaders w.header r.headers r.multiValueHeaders with
  | none => none
  | some (hs, ms) =>
    let r := { r with headers := hs, multiValueHeaders := ms }
    let contentType := headerGet w.header contentTypeHeader
    let body := w.body
    if contentType == mimeTypeApplicationOctetStream then
      some { r with body := base64Encode body, isBase64Encoded := true }
    else
      some { r with body := body }

/-- The nil-`preparedResponse` branch of
`ambiguousLambdaResponse.TranscodeFrom` (part_001 lines 176-187): the
least-common-denominator fallback envelope built from the capture buffer. -/
def lcdTranscodeFrom (w : LambdaHTTPResponseWriter) :
    LeastCommonDenominatorResponse :=
  let resp : LeastCommonDenominatorResponse :=
    { statusCode := w.statusCode, body := [], isBase64Encoded := false }
  let contentType := headerGet w.header contentTypeHeader
  let body := w.body
  if contentType == mimeTypeApplicationOctetStream then
    { resp with body := base64Encode body, isBase64Encoded := true }
  else
    { resp with body := body }

/-- Hex digit value of a character, `none` for non-hex characters. -/
def hexVal (c : Char) : Option Nat :=
  let n := c.toNat
  if 48 ≤ n && n ≤ 57 then some (n - 48)
  else if 97 ≤ n && n ≤ 102 then some (n - 97 + 10)
  else if 65 ≤ n && n ≤ 70 then some (n - 65 + 10)
  else none

/-- Character-level model of `url.PathUnescape`: every `%` must be followed
by two hex digits and is replaced by the decoded byte; any other character
passes through (in path mode `+` is left as-is); a malformed escape is an
error (`none`). -/
def pathUnescapeChars : List Char → Option (List Char)
  | [] => some []
  | '%' :: rest =>
    match rest with
    | a :: b :: rest2 =>
      match hexVal a, hexVal b with
      | some ha, some hb =>
        match pathUnescapeChars rest2 with
        | some tail => some (Char.ofNat (16 * ha + hb) :: tail)
        | none => none
      | _, _ => none
    | _ => none
  | c :: rest =>
    match pathUnescapeChars rest with
    | some tail => some (c :: tail)
    | none => none

/-- Model of `url.PathUnescape` on strings. -/
def pathUnescape (s : String) : Option String :=
  (pathUnescapeChars s.data).map String.mk

/-- `url.Values.Add`: append a value under the exact key (no key
canonicalization, unlike `http.Header.Add`). -/
def valuesAdd (ps : List (String × List String)) (k v : String) :
    List (String × List String) :=
  headerSetRaw ps k (((headerFind ps k).getD []) ++ [v])

/-- The canonical in-memory `*http.Request` the bridge produces: only the
fields the bridge assigns (the URL serialize/re-parse inside
`http.NewRequestWithContext` is identity on these components and is
abstracted away). -/
structure HTTPRequest where
  method : String
  host : String
  urlPath : String
  rawQuery : String
  header : Header
  remoteAddr : String
  bodyReader : GoReader
deriving DecidableEq, Repr

/-- `http.NewRequestWithContext` method handling: an empty method defaults
to `"GET"`; a method containing a non-token character is an error. -/
def resolveMethod (m : String) : Option String :=
  let m := if m == "" then "GET" else m
  if m.data.all validHeaderFieldByte then some m else none

/-- The shared body-reader construction of all three `Canonize` functions
(requests.go lines 72-77, 120-125, 170-175), kept exactly as written in Go:
`var body io.Reader` leaves `body` nil, and the base64 branch wraps that
still-nil `body` — not a reader over `r.Body` — in the decoder. -/
def canonizeBodyReader (isBase64Encoded : Bool) (reqBody : List UInt8) :
    GoReader :=
  let body := GoReader.nilReader
  if isBase64Encoded then GoReader.base64Decoder body
  else GoReader.stringReader reqBody

/-- Header map built from a single-value header map via `http.Header.Add`
(requests.go lines 56-59 and 154-157). -/
def headersFromSingles (singles : List (String × String)) : Header :=
  singles.foldl (fun h kv => headerAdd h kv.1 kv.2) []

/-- Header map of the V1 canonicalizer (requests.go lines 101-107): the
single-value map is merged via `headers.Add(k, v)` (which canonicalizes the
key) and the multi-value map afterwards via the plain map assignment
`headers[k] = v` (which does not). -/
def headersFromV1 (singles : List (String × String))
    (multis : List (String × List String)) : Header :=
  let h := headersFromSingles singles
  multis.foldl (fun h kv => headerSetRaw h kv.1 kv.2) h

/-- `events.APIGatewayV2HTTPRequest` request-context HTTP description
(only fields the bridge reads). -/
structure V2ContextHTTPDescription where
  method : String
  sourceIP : String
deriving DecidableEq, Repr

/-- `events.APIGatewayV2HTTPRequest` request context (used fields). -/
structure APIGatewayV2RequestContext where
  http : V2ContextHTTPDescription
deriving DecidableEq, Repr

/-- `events.APIGatewayV2HTTPRequest` (only fields the bridge reads). -/
structure APIGatewayV2Request where
  rawPath : String
  rawQueryString : String
  queryStringParameters : List (String × String)
  headers : List (String × String)
  requestContext : APIGatewayV2RequestContext
  body : List UInt8
  isBase64Encoded : Bool
deriving DecidableEq, Repr

/-- `events.APIGatewayProxyRequest` request-context identity (used fields). -/
structure V1ContextIdentity where
  sourceIP : String
deriving DecidableEq, Repr

/-- `events.APIGatewayProxyRequest` request context (used fields). -/
structure APIGatewayV1RequestContext where
  accountID : String
  identity : V1ContextIdentity
deriving DecidableEq, Repr

/-- `events.APIGatewayProxyRequest` (only fields the bridge reads). -/
structure APIGatewayV1Request where
  path : String
  httpMethod : String
  headers : List (String × String)
  multiValueHeaders : List (String × List String)
  queryStringParameters : List (String × String)
  multiValueQueryStringParameters : List (String × List String)
  requestContext : APIGatewayV1RequestContext
  body : List UInt8
  isBase64Encoded : Bool
deriving DecidableEq, Repr

/-- `events.ALBTargetGroupRequest` (only fields the bridge reads). -/
structure ALBRequest where
  httpMethod : String
  path : String
  queryStringParameters : List (String × String)
  headers : List (String × String)
  multiValueHeaders : List (String × List String)
  body : List UInt8
  isBase64Encoded : Bool
deriving DecidableEq, Repr

/-- The part of `strings.SplitN(s, ",", 2)` the bridge uses: its first
element, i.e. the text before the first comma (the whole string when no
comma occurs; `SplitN` with limit 2 always yields at least one element). -/
def beforeFirstComma (s : String) : String :=
  String.mk (s.data.takeWhile (fun c => c ≠ ','))

/-- `albRequest.sourceIP` (requests.go lines 137-145): look up the exact
lowercase key `"x-forwarded-for"` in the multi-value header map only; when
present with at least one value, return the first comma-separated address
of its first value, otherwise return `""`. -/
def albSourceIPOf (r : ALBRequest) : String :=
  match headerFind r.multiValueHeaders "x-forwarded-for" with
  | some xff =>
    if xff.length > 0 then beforeFirstComma (xff.headD "") else ""
  | none => ""

/-- `apiGatewayV2Request.Canonize` (requests.go lines 46-87). -/
def apiGatewayV2Canonize (lib : GoLib) (r : APIGatewayV2Request) :
    Option HTTPRequest :=
  let rawQuery := r.rawQueryString
  let rawQuery :=
    if rawQuery.length == 0 then
      lib.urlValuesEncode
        (r.queryStringParameters.foldl (fun ps kv => valuesAdd ps kv.1 kv.2) [])
    else rawQuery
  let headers := headersFromSingles r.headers
  match pathUnescape r.rawPath with
  | none => none
  | some path =>
    let body := canonizeBodyReader r.isBase64Encoded r.body
    match resolveMethod r.requestContext.http.method with
    | none => none
    | some method =>
      some { method := method, host := headerGet headers hostHeader,
             urlPath := path, rawQuery := rawQuery, header := headers,
             remoteAddr := r.requestContext.http.sourceIP, bodyReader := body }

/-- `apiGatewayV1Request.Canonize` (requests.go lines 89-135). -/
def apiGatewayV1Canonize (lib : GoLib) (r : APIGatewayV1Request) :
    Option HTTPRequest :=
  let params :=
    r.queryStringParameters.foldl (fun ps kv => valuesAdd ps kv.1 kv.2) []
  let params :=
    r.multiValueQueryStringParameters.foldl
      (fun ps kv => kv.2.foldl (fun ps v => valuesAdd ps kv.1 v) ps) params
  let rawQuery := lib.urlValuesEncode params
  let headers := headersFromV1 r.headers r.multiValueHeaders
  match pathUnescape r.path with
  | none => none
  | some path =>
    let body := canonizeBodyReader r.isBase64Encoded r.body
    match resolveMethod r.httpMethod with
    | none => none
    | some method =>
      some { method := method, host := headerGet headers hostHeader,
             urlPath := path, rawQuery := rawQuery, header := headers,
             remoteAddr := r.requestContext.identity.sourceIP,
             bodyReader := body }

/-- `albRequest.Canonize` (requests.go lines 147-185): note the header map
is built from the single-value map only, while the remote address comes
from `sourceIP`, which reads the multi-value map only. -/
def albCanonize (lib : GoLib) (r : ALBRequest) : Option HTTPRequest :=
  let params :=
    r.queryStringParameters.foldl (fun ps kv => valuesAdd ps kv.1 kv.2) []
  let rawQuery := lib.urlValuesEncode params
  let headers := headersFromSingles r.headers
  match pathUnescape r.path with
  | none => none
  | some path =>
    let body := canonizeBodyReader r.isBase64Encoded r.body
    match resolveMethod r.httpMethod with
    | none => none
    | some method =>
      some { method := method, host := headerGet headers hostHeader,
             urlPath := path, rawQuery := rawQuery, header := headers,
             remoteAddr := albSourceIPOf r, bodyReader := body }

/-- The discriminating markers of `ambiguousLambdaRequest` (requests.go
lines 21-32) as they come out of `json.Unmarshal`: a field absent from the
payload is the empty string. -/
structure AmbiguousELBContext where
  targetGroupArn : String
deriving DecidableEq, Repr

/-- `requestContext` sub-object of `ambiguousLambdaRequest`. -/
structure AmbiguousRequestContext where
  elb : AmbiguousELBContext
  accountID : String
deriving DecidableEq, Repr

/-- `ambiguousLambdaRequest` (requests.go lines 21-32). -/
structure AmbiguousLambdaRequest where
  requestContext : AmbiguousRequestContext
  version : String
deriving DecidableEq, Repr

/-- The format tag decided once per request by classification. -/
inductive FormatTag where
  | loadBalancer : FormatTag
  | gatewayV2 : FormatTag
  | gatewayV1 : FormatTag
deriving DecidableEq, Repr

/-- `ErrUnsupportedRequestType` (requests.go line 188). -/
inductive DemuxError where
  | unsupportedRequestType : DemuxError
deriving DecidableEq, Repr

/-- The format selection of `demuxAmbiguousRequest` (requests.go lines
191-218): first match wins among the ALB target-group ARN, the `"2.0"`
version, and the account identifier; no marker means
`ErrUnsupportedRequestType` and no prepared response is retained. -/
def demuxFormat (r : AmbiguousLambdaRequest) : Except DemuxError FormatTag :=
  if r.requestContext.elb.targetGroupArn ≠ "" then .ok .loadBalancer
  else if r.version = "2.0" then .ok .gatewayV2
  else if r.requestContext.accountID ≠ "" then .ok .gatewayV1
  else .error .unsupportedRequestType

/-- The reply payload of one invocation: either the JSON serialization of a
least-common-denominator envelope (the error path builds exactly
`leastCommonDenominatorResponse{StatusCode: 500, Body: err.Error()}` and
marshals it; serialization is kept symbolic) or the bytes produced by the
response transcoder. -/
inductive LambdaReplyPayload where
  | lcd (resp : LeastCommonDenominatorResponse) : LambdaReplyPayload
  | transcoded (respBytes : List UInt8) : LambdaReplyPayload
deriving DecidableEq, Repr

/-- The pair a lambda handler function returns: the reply payload and the
invocation-level error (non-`none` would surface as a platform fault). -/
structure LambdaInvokeResult where
  payload : LambdaReplyPayload
  invokeError : Option (List UInt8)
deriving DecidableEq, Repr

/-- The control flow of the `ServeHTTP` lambda handler (part_002 lines
44-76) with the three stages abstracted to their outcomes (a Go error is
modelled as its `err.Error()` message bytes): demux, canonize, and
transcode each short-circuit to a 500 fallback envelope carrying the error
text, returned with a nil invocation error; on success the transcoded
bytes are returned with a nil invocation error. -/
def serveHTTPInvoke (demuxResult : Except (List UInt8) Unit)
    (canonizeResult : Except (List UInt8) Unit)
    (transcodeResult : Except (List UInt8) (List UInt8)) :
    LambdaInvokeResult :=
  match demuxResult with
  | .error e =>
    { payload := .lcd { statusCode := 500, body := e, isBase64Encoded := false },
      invokeError := none }
  | .ok _ =>
    match canonizeResult with
    | .error e =>
      { payload := .lcd { statusCode := 500, body := e, isBase64Encoded := false },
        invokeError := none }
    | .ok _ =>
      match transcodeResult with
      | .error e =>
        { payload := .lcd { statusCode := 500, body := e, isBase64Encoded := false },
          invokeError := none }
      | .ok bs =>
        { payload := .transcoded bs, invokeError := none }

/-- The byte content an envelope's body field carries: the base64 decoding
of the field when the binary flag is set, the field's bytes otherwise. -/
def envelopeBodyBytes (isB64 : Bool) (body : List UInt8) : Option (List UInt8) :=
  if isB64 then base64Decode body else some body

/-! ### Theorems -/

/-- C1: for every payload, classification selects exactly one format tag by
first match in the priority order ALB target-group ARN, then version
`"2.0"`, then account identifier; with none of the markers present it fails
with the unsupported-format error and no tag is retained. -/
theorem classification_first_match_priority (r : AmbiguousLambdaRequest) :
    (demuxFormat r = .ok .loadBalancer ↔
      r.requestContext.elb.targetGroupArn ≠ "") ∧
    (demuxFormat r = .ok .gatewayV2 ↔
      (r.requestContext.elb.targetGroupArn = "" ∧ r.version = "2.0")) ∧
    (demuxFormat r = .ok .gatewayV1 ↔
      (r.requestContext.elb.targetGroupArn = "" ∧ r.version ≠ "2.0" ∧
       r.requestContext.accountID ≠ "")) ∧
    (demuxFormat r = .error .unsupportedRequestType ↔
      (r.requestContext.elb.targetGroupArn = "" ∧ r.version ≠ "2.0" ∧
       r.requestContext.accountID = "")) := by
  unfold demuxFormat
  split_ifs with h1 h2 h3 <;> simp_all

/-- C7: whichever of the three stages fails first, the orchestrator returns
a normal reply (nil invocation error, so the failure is never surfaced as
an invocation-level fault) holding the minimal fallback envelope with
status 500 and the failure's message as the body. -/
theorem orchestrator_failure_to_fallback (m : List UInt8)
    (c : Except (List UInt8) Unit) (t : Except (List UInt8) (List UInt8)) :
    serveHTTPInvoke (.error m) c t =
      { payload := .lcd { statusCode := 500, body := m, isBase64Encoded := false },
        invokeError := none } ∧
    serveHTTPInvoke (.ok ()) (.error m) t =
      { payload := .lcd { statusCode := 500, body := m, isBase64Encoded := false },
        invokeError := none } ∧
    serveHTTPInvoke (.ok ()) (.ok ()) (.error m) =
      { payload := .lcd { statusCode := 500, body := m, isBase64Encoded := false },
        invokeError := none } := ⟨rfl, rfl, rfl⟩

/-- C5 (code evaluation): the V1 and ALB transcoders panic (`none`, Go:
assignment to an entry of the never-allocated nil `MultiValueHeaders` map)
as soon as any header key holds more than one value, instead of placing the
key in the multi-value map; a buffer whose keys all hold exactly one value
transcodes normally into the single-value map only. -/
theorem v1_alb_multivalue_header_panics :
    apiGatewayV1TranscodeFrom emptyV1Response
      { header := [("X-Test", ["1", "2"])], body := [], statusCode := 200 } = none ∧
    albTranscodeFrom trivialGoLib emptyALBResponse
      { header := [("X-Test", ["1", "2"])], body := [], statusCode := 200 } = none ∧
    apiGatewayV1TranscodeFrom emptyV1Response
      { header := [("X-Test", ["1"]), ("X-Two", ["a"])], body := [], statusCode := 200 } =
      some { statusCode := 200, headers := [("X-Test", "1"), ("X-Two", "a")],
             multiValueHeaders := none, body := [], isBase64Encoded := false } := by
  decide

/-- C10 (code evaluation): the V2 transcoder extracts every value of the
reserved `Set-Cookie` key into the cookie list, keeps it out of the
ordinary headers map, joins every other key's values with `","` into the
single-value map and never populates the multi-value field; but the V1 and
ALB transcoders, handed the same two-valued `Set-Cookie` key, panic
(`none`) on the nil `MultiValueHeaders` map instead of giving the values
the normal multi-value placement. -/
theorem v2_cookie_extraction_v1_setcookie_panics :
    apiGatewayV2TranscodeFrom emptyV2Response
      { header := [("Set-Cookie", ["a=1", "b=2"]), ("X-Other", ["v", "w"])],
        body := [], statusCode := 200 } =
      { statusCode := 200, headers := [("X-Other", "v,w")],
        multiValueHeaders := none, body := [], isBase64Encoded := false,
        cookies := ["a=1", "b=2"] } ∧
    apiGatewayV1TranscodeFrom emptyV1Response
      { header := [("Set-Cookie", ["a=1", "b=2"])], body := [], statusCode := 200 } = none ∧
    albTranscodeFrom trivialGoLib emptyALBResponse
      { header := [("Set-Cookie", ["a=1", "b=2"])], body := [], statusCode := 200 } = none := by
  decide

/-- C2 (code evaluation): decoding the base64 body field `"aGVsbG8="`
yields `"hello"` — what the claim demands the body reader to produce — but
for all three formats, a binary-flagged envelope gets a body reader that is
a base64 decoder wrapped around the nil `body` variable instead of around
the body field, so draining it panics (`none`) and never yields those
bytes. -/
theorem binary_body_reader_wraps_nil :
    base64Decode [97, 71, 86, 115, 98, 71, 56, 61] =
      some [104, 101, 108, 108, 111] ∧
    (apiGatewayV2Canonize trivialGoLib
      { rawPath := "/", rawQueryString := "", queryStringParameters := [],
        headers := [], requestContext := { http := { method := "GET", sourceIP := "" } },
        body := [97, 71, 86, 115, 98, 71, 56, 61], isBase64Encoded := true }).map
      (fun q => (q.bodyReader, readAll q.bodyReader)) =
      some (.base64Decoder .nilReader, none) ∧
    (apiGatewayV1Canonize trivialGoLib
      { path := "/", httpMethod := "GET", headers := [], multiValueHeaders := [],
        queryStringParameters := [], multiValueQueryStringParameters := [],
        requestContext := { accountID := "a", identity := { sourceIP := "" } },
        body := [97, 71, 86, 115, 98, 71, 56, 61], isBase64Encoded := true }).map
      (fun q => (q.bodyReader, readAll q.bodyReader)) =
      some (.base64Decoder .nilReader, none) ∧
    (albCanonize trivialGoLib
      { httpMethod := "GET", path := "/", queryStringParameters := [],
        headers := [], multiValueHeaders := [],
        body := [97, 71, 86, 115, 98, 71, 56, 61], isBase64Encoded := true }).map
      (fun q => (q.bodyReader, readAll q.bodyReader)) =
      some (.base64Decoder .nilReader, none) := by
  decide

/-- C4: once the status is finalized (nonzero), any further sequence of
`SetStatus`, `Write` and `Flush` calls, in any order, leaves the status
code and the header map (hence the content-type decision) unchanged, while
each `Write` still appends its bytes to the body accumulator. -/
theorem writer_finalized_write_once (lib : GoLib)
    (l : LambdaHTTPResponseWriter) (ops : List WriterOp)
    (h : l.statusCode ≠ 0) :
    (execOps lib l ops).statusCode = l.statusCode ∧
    (execOps lib l ops).header = l.header ∧
    (execOps lib l ops).body = l.body ++ writtenBytes ops := by
  induction ops generalizing l with
  | nil => simp [execOps, writtenBytes]
  | cons op rest ih =>
    have hfold : execOps lib l (op :: rest) = execOps lib (execOp lib l op) rest := rfl
    cases op with
    | setStatus code =>
      have hstep : execOp lib l (.setStatus code) = l := by
        simp [execOp, writerWriteHeader, h]
      rw [hfold, hstep]
      simpa [writtenBytes] using ih l h
    | write data =>
      have hstep : execOp lib l (.write data) =
          { l with body := l.body ++ data.getD [] } := by
        simp [execOp, writerWrite, writeHeaderLine, h]
      rw [hfold, hstep]
      have := ih { l with body := l.body ++ data.getD [] } (by simpa using h)
      simpa [writtenBytes, List.append_assoc] using this
    | flush =>
      have hstep : execOp lib l .flush = l := by
        simp [execOp, writerFlush, h]
      rw [hfold, hstep]
      simpa [writtenBytes] using ih l h

/-- Witness for `writer_finalized_write_once` at a concrete finalized
buffer and call sequence. -/
theorem writer_finalized_write_once_witness :
    ({ header := [("Content-Type", ["text/html"])], body := [1],
       statusCode := 404 } : LambdaHTTPResponseWriter).statusCode ≠ 0 ∧
    ((execOps trivialGoLib
        { header := [("Content-Type", ["text/html"])], body := [1], statusCode := 404 }
        [.setStatus 500, .write (some [2, 3]), .flush, .write (some [4])]).statusCode =
      ({ header := [("Content-Type", ["text/html"])], body := [1],
         statusCode := 404 } : LambdaHTTPResponseWriter).statusCode ∧
     (execOps trivialGoLib
        { header := [("Content-Type", ["text/html"])], body := [1], statusCode := 404 }
        [.setStatus 500, .write (some [2, 3]), .flush, .write (some [4])]).header =
      ({ header := [("Content-Type", ["text/html"])], body := [1],
         statusCode := 404 } : LambdaHTTPResponseWriter).header ∧
     (execOps trivialGoLib
        { header := [("Content-Type", ["text/html"])], body := [1], statusCode := 404 }
        [.setStatus 500, .write (some [2, 3]), .flush, .write (some [4])]).body =
      ({ header := [("Content-Type", ["text/html"])], body := [1],
         statusCode := 404 } : LambdaHTTPResponseWriter).body ++
        writtenBytes [.setStatus 500, .write (some [2, 3]), .flush, .write (some [4])]) :=
  ⟨by decide,
   writer_finalized_write_once trivialGoLib
     { header := [("Content-Type", ["text/html"])], body := [1], statusCode := 404 }
     [.setStatus 500, .write (some [2, 3]), .flush, .write (some [4])]
     (by decide)⟩

/-- C3: for every format, canonicalizing any envelope of that format that
canonicalizes successfully, running a handler that sets status `s` (a real
status code, nonzero) and then writes exactly the bytes `b` into a fresh
capture buffer, and transcoding that buffer yields an envelope whose
status code is exactly `s` and whose body field carries exactly the bytes
`b` (after base64 decoding when its binary flag is set). -/
theorem roundtrip_status_and_body (lib : GoLib) (s : Int) (b : List UInt8)
    (r2 : APIGatewayV2Request) (q2 : HTTPRequest)
    (r1 : APIGatewayV1Request) (q1 : HTTPRequest)
    (ra : ALBRequest) (qa : HTTPRequest)
    (hs : s ≠ 0)
    (h2 : apiGatewayV2Canonize lib r2 = some q2)
    (h1 : apiGatewayV1Canonize lib r1 = some q1)
    (ha : albCanonize lib ra = some qa) :
    ((apiGatewayV2TranscodeFrom emptyV2Response
        (writerWrite lib (writerWriteHeader emptyWriter s) (some b))).statusCode = s ∧
     envelopeBodyBytes
       (apiGatewayV2TranscodeFrom emptyV2Response
         (writerWrite lib (writerWriteHeader emptyWriter s) (some b))).isBase64Encoded
       (apiGatewayV2TranscodeFrom emptyV2Response
         (writerWrite lib (writerWriteHeader emptyWriter s) (some b))).body = some b) ∧
    (∃ resp1, apiGatewayV1TranscodeFrom emptyV1Response
        (writerWrite lib (writerWriteHeader emptyWriter s) (some b)) = some resp1 ∧
      resp1.statusCode = s ∧
      envelopeBodyBytes resp1.isBase64Encoded resp1.body = some b) ∧
    (∃ respA, albTranscodeFrom lib emptyALBResponse
        (writerWrite lib (writerWriteHeader emptyWriter s) (some b)) = some respA ∧
      respA.statusCode = s ∧
      envelopeBodyBytes respA.isBase64Encoded respA.body = some b) := by
  have hw : writerWrite lib (writerWriteHeader emptyWriter s) (some b) =
      { header := [], body := b, statusCode := s } := by
    simp [writerWrite, writerWriteHeader, writeHeaderLine, emptyWriter, hs]
  have hget : headerGet ([] : Header) contentTypeHeader = "" := by
    simp [headerGet, headerFind]
  have hmime : (("" : String) == mimeTypeApplicationOctetStream) = false := by
    decide
  rw [hw]
  refine ⟨⟨?_, ?_⟩, ?_, ?_⟩
  · simp [apiGatewayV2TranscodeFrom, collectV2Headers, hget, hmime,
      emptyV2Response]
  · simp [apiGatewayV2TranscodeFrom, collectV2Headers, hget, hmime,
      emptyV2Response, envelopeBodyBytes]
  · have hv1 : apiGatewayV1TranscodeFrom emptyV1Response
        { header := [], body := b, statusCode := s } =
        some { statusCode := s, headers := [], multiValueHeaders := none,
               body := b, isBase64Encoded := false } := by
      simp [apiGatewayV1TranscodeFrom, placeHeaders, emptyV1Response, hget, hmime]
    exact ⟨_, hv1, rfl, by simp [envelopeBodyBytes]⟩
  · have halb : albTranscodeFrom lib emptyALBResponse
        { header := [], body := b, statusCode := s } =
        some { statusCode := s, statusDescription := lib.statusText s,
               headers := [], multiValueHeaders := none,
               body := b, isBase64Encoded := false } := by
      simp [albTranscodeFrom, placeHeaders, emptyALBResponse, hget, hmime]
    exact ⟨_, halb, rfl, by simp [envelopeBodyBytes]⟩

/-- Witness for `roundtrip_status_and_body`: concrete envelopes of all
three formats that canonicalize successfully, with status 201 and body
`[104, 105]`. -/
theorem roundtrip_status_and_body_witness :
    ((201 : Int) ≠ 0) ∧
    apiGatewayV2Canonize trivialGoLib
      { rawPath := "/", rawQueryString := "", queryStringParameters := [],
        headers := [], requestContext := { http := { method := "GET", sourceIP := "" } },
        body := [], isBase64Encoded := false } =
      some { method := "GET", host := "", urlPath := "/", rawQuery := "",
             header := [], remoteAddr := "", bodyReader := .stringReader [] } ∧
    apiGatewayV1Canonize trivialGoLib
      { path := "/", httpMethod := "GET", headers := [], multiValueHeaders := [],
        queryStringParameters := [], multiValueQueryStringParameters := [],
        requestContext := { accountID := "a", identity := { sourceIP := "" } },
        body := [], isBase64Encoded := false } =
      some { method := "GET", host := "", urlPath := "/", rawQuery := "",
             header := [], remoteAddr := "", bodyReader := .stringReader [] } ∧
    albCanonize trivialGoLib
      { httpMethod := "GET", path := "/", queryStringParameters := [],
        headers := [], multiValueHeaders := [], body := [],
        isBase64Encoded := false } =
      some { method := "GET", host := "", urlPath := "/", rawQuery := "",
             header := [], remoteAddr := "", bodyReader := .stringReader [] } ∧
    (((apiGatewayV2TranscodeFrom emptyV2Response
        (writerWrite trivialGoLib (writerWriteHeader emptyWriter 201)
          (some [104, 105]))).statusCode = 201 ∧
      envelopeBodyBytes
        (apiGatewayV2TranscodeFrom emptyV2Response
          (writerWrite trivialGoLib (writerWriteHeader emptyWriter 201)
            (some [104, 105]))).isBase64Encoded
        (apiGatewayV2TranscodeFrom emptyV2Response
          (writerWrite trivialGoLib (writerWriteHeader emptyWriter 201)
            (some [104, 105]))).body = some [104, 105]) ∧
     (∃ resp1, apiGatewayV1TranscodeFrom emptyV1Response
          (writerWrite trivialGoLib (writerWriteHeader emptyWriter 201)
            (some [104, 105])) = some resp1 ∧
        resp1.statusCode = 201 ∧
        envelopeBodyBytes resp1.isBase64Encoded resp1.body = some [104, 105]) ∧
     (∃ respA, albTranscodeFrom trivialGoLib emptyALBResponse
          (writerWrite trivialGoLib (writerWriteHeader emptyWriter 201)
            (some [104, 105])) = some respA ∧
        respA.statusCode = 201 ∧
        envelopeBodyBytes respA.isBase64Encoded respA.body = some [104, 105])) :=
  ⟨by decide, by decide, by decide, by decide,
   roundtrip_status_and_body trivialGoLib 201 [104, 105]
     { rawPath := "/", rawQueryString := "", queryStringParameters := [],
       headers := [], requestContext := { http := { method := "GET", sourceIP := "" } },
       body := [], isBase64Encoded := false }
     { method := "GET", host := "", urlPath := "/", rawQuery := "",
       header := [], remoteAddr := "", bodyReader := .stringReader [] }
     { path := "/", httpMethod := "GET", headers := [], multiValueHeaders := [],
       queryStringParameters := [], multiValueQueryStringParameters := [],
       requestContext := { accountID := "a", identity := { sourceIP := "" } },
       body := [], isBase64Encoded := false }
     { method := "GET", host := "", urlPath := "/", rawQuery := "",
       header := [], remoteAddr := "", bodyReader := .stringReader [] }
     { httpMethod := "GET", path := "/", queryStringParameters := [],
       headers := [], multiValueHeaders := [], body := [],
       isBase64Encoded := false }
     { method := "GET", host := "", urlPath := "/", rawQuery := "",
       header := [], remoteAddr := "", bodyReader := .stringReader [] }
     (by decide) (by decide) (by decide) (by decide)⟩

/-- C6: for every capture buffer, the V2 transcoder and the fallback
envelope emit the binary flag as true exactly when the buffer's
content-type header equals the octet-stream MIME type at transcode time,
in which case the emitted body is the standard base64 encoding of the
accumulated body bytes, and otherwise emit the accumulated bytes as text
with the flag false; the V1 and ALB transcoders do the same on every
buffer for which their transcode run completes and emits an envelope. -/
theorem transcode_binary_flag_octet_stream (lib : GoLib)
    (w : LambdaHTTPResponseWriter) :
    ((apiGatewayV2TranscodeFrom emptyV2Response w).isBase64Encoded = true ↔
      headerGet w.header contentTypeHeader = mimeTypeApplicationOctetStream) ∧
    (apiGatewayV2TranscodeFrom emptyV2Response w).body =
      (if headerGet w.header contentTypeHeader = mimeTypeApplicationOctetStream
       then base64Encode w.body else w.body) ∧
    (∀ resp1, apiGatewayV1TranscodeFrom emptyV1Response w = some resp1 →
      ((resp1.isBase64Encoded = true ↔
         headerGet w.header contentTypeHeader = mimeTypeApplicationOctetStream) ∧
       resp1.body =
         (if headerGet w.header contentTypeHeader = mimeTypeApplicationOctetStream
          then base64Encode w.body else w.body))) ∧
    (∀ respA, albTranscodeFrom lib emptyALBResponse w = some respA →
      ((respA.isBase64Encoded = true ↔
         headerGet w.header contentTypeHeader = mimeTypeApplicationOctetStream) ∧
       respA.body =
         (if headerGet w.header contentTypeHeader = mimeTypeApplicationOctetStream
          then base64Encode w.body else w.body))) ∧
    ((lcdTranscodeFrom w).isBase64Encoded = true ↔
      headerGet w.header contentTypeHeader = mimeTypeApplicationOctetStream) ∧
    (lcdTranscodeFrom w).body =
      (if headerGet w.header contentTypeHeader = mimeTypeApplicationOctetStream
       then base64Encode w.body else w.body) := by
  by_cases hc : headerGet w.header contentTypeHeader =
      mimeTypeApplicationOctetStream
  · have hb : (headerGet w.header contentTypeHeader ==
        mimeTypeApplicationOctetStream) = true := beq_iff_eq.mpr hc
    refine ⟨?_, ?_, ?_, ?_, ?_, ?_⟩
    · simp [apiGatewayV2TranscodeFrom, emptyV2Response, hb, hc]
    · simp [apiGatewayV2TranscodeFrom, emptyV2Response, hb, hc]
    · intro resp1 h1
      simp only [apiGatewayV1TranscodeFrom, emptyV1Response, hb, if_true] at h1
      cases hp : placeHeaders w.header [] none with
      | none =>
        rw [hp] at h1
        simp at h1
      | some p =>
        obtain ⟨hs, ms⟩ := p
        rw [hp] at h1
        simp only [Option.some.injEq] at h1
        subst h1
        simp [hc]
    · intro respA ha
      simp only [albTranscodeFrom, emptyALBResponse, hb, if_true] at ha
      cases hp : placeHeaders w.header [] none with
      | none =>
        rw [hp] at ha
        simp at ha
      | some p =>
        obtain ⟨hs, ms⟩ := p
        rw [hp] at ha
        simp only [Option.some.injEq] at ha
        subst ha
        simp [hc]
    · simp [lcdTranscodeFrom, hb, hc]
    · simp [lcdTranscodeFrom, hb, hc]
  · have hb : (headerGet w.header contentTypeHeader ==
        mimeTypeApplicationOctetStream) = false := by
      simp [hc]
    refine ⟨?_, ?_, ?_, ?_, ?_, ?_⟩
    · simp [apiGatewayV2TranscodeFrom, emptyV2Response, hb, hc]
    · simp [apiGatewayV2TranscodeFrom, emptyV2Response, hb, hc]
    · intro resp1 h1
      simp only [apiGatewayV1TranscodeFrom, emptyV1Response, hb,
        Bool.false_eq_true, if_false] at h1
      cases hp : placeHeaders w.header [] none with
      | none =>
        rw [hp] at h1
        simp at h1
      | some p =>
        obtain ⟨hs, ms⟩ := p
        rw [hp] at h1
        simp only [Option.some.injEq] at h1
        subst h1
        simp [hc]
    · intro respA ha
      simp only [albTranscodeFrom, emptyALBResponse, hb,
        Bool.false_eq_true, if_false] at ha
      cases hp : placeHeaders w.header [] none with
      | none =>
        rw [hp] at ha
        simp at ha
      | some p =>
        obtain ⟨hs, ms⟩ := p
        rw [hp] at ha
        simp only [Option.some.injEq] at ha
        subst ha
        simp [hc]
    · simp [lcdTranscodeFrom, hb, hc]
    · simp [lcdTranscodeFrom, hb, hc]

/-- Witness for `transcode_binary_flag_octet_stream` at a buffer holding an
octet-stream content type and body bytes `[1, 2, 3]`, including the inner
V1/ALB completion premises discharged at their concrete envelopes. -/
theorem transcode_binary_flag_octet_stream_witness :
    apiGatewayV1TranscodeFrom emptyV1Response
      { header := [("Content-Type", ["application/octet-stream"])],
        body := [1, 2, 3], statusCode := 200 } =
      some { statusCode := 200,
             headers := [("Content-Type", "application/octet-stream")],
             multiValueHeaders := none, body := [65, 81, 73, 68],
             isBase64Encoded := true } ∧
    albTranscodeFrom trivialGoLib emptyALBResponse
      { header := [("Content-Type", ["application/octet-stream"])],
        body := [1, 2, 3], statusCode := 200 } =
      some { statusCode := 200, statusDescription := "",
             headers := [("Content-Type", "application/octet-stream")],
             multiValueHeaders := none, body := [65, 81, 73, 68],
             isBase64Encoded := true } ∧
    ((apiGatewayV2TranscodeFrom emptyV2Response
        { header := [("Content-Type", ["application/octet-stream"])],
          body := [1, 2, 3], statusCode := 200 }).isBase64Encoded = true ↔
      headerGet [("Content-Type", ["application/octet-stream"])]
        contentTypeHeader = mimeTypeApplicationOctetStream) ∧
    (({ statusCode := 200,
        headers := [("Content-Type", "application/octet-stream")],
        multiValueHeaders := none, body := [65, 81, 73, 68],
        isBase64Encoded := true } : APIGatewayV1Response).isBase64Encoded = true ↔
      headerGet [("Content-Type", ["application/octet-stream"])]
        contentTypeHeader = mimeTypeApplicationOctetStream) ∧
    ({ statusCode := 200, statusDescription := "",
       headers := [("Content-Type", "application/octet-stream")],
       multiValueHeaders := none, body := [65, 81, 73, 68],
       isBase64Encoded := true } : ALBResponse).body =
      (if headerGet [("Content-Type", ["application/octet-stream"])]
          contentTypeHeader = mimeTypeApplicationOctetStream
       then base64Encode [1, 2, 3] else [1, 2, 3]) ∧
    ((lcdTranscodeFrom
        { header := [("Content-Type", ["application/octet-stream"])],
          body := [1, 2, 3], statusCode := 200 }).isBase64Encoded = true ↔
      headerGet [("Content-Type", ["application/octet-stream"])]
        contentTypeHeader = mimeTypeApplicationOctetStream) :=
  ⟨by decide, by decide,
   (transcode_binary_flag_octet_stream trivialGoLib
     { header := [("Content-Type", ["application/octet-stream"])],
       body := [1, 2, 3], statusCode := 200 }).1,
   ((transcode_binary_flag_octet_stream trivialGoLib
      { header := [("Content-Type", ["application/octet-stream"])],
        body := [1, 2, 3], statusCode := 200 }).2.2.1
     { statusCode := 200,
       headers := [("Content-Type", "application/octet-stream")],
       multiValueHeaders := none, body := [65, 81, 73, 68],
       isBase64Encoded := true } (by decide)).1,
   ((transcode_binary_flag_octet_stream trivialGoLib
      { header := [("Content-Type", ["application/octet-stream"])],
        body := [1, 2, 3], statusCode := 200 }).2.2.2.1
     { statusCode := 200, statusDescription := "",
       headers := [("Content-Type", "application/octet-stream")],
       multiValueHeaders := none, body := [65, 81, 73, 68],
       isBase64Encoded := true } (by decide)).2,
   (transcode_binary_flag_octet_stream trivialGoLib
     { header := [("Content-Type", ["application/octet-stream"])],
       body := [1, 2, 3], statusCode := 200 }).2.2.2.2.1⟩

/-- C9 counterexample: an ALB envelope carrying the forwarded-for header in
its single-value header map (so the header is present in the envelope, and
even reaches the canonical request's header multimap) still gets an empty
remote address, because `sourceIP` consults only the multi-value map. -/
theorem alb_single_map_forwarded_for_ignored :
    (albCanonize trivialGoLib
      { httpMethod := "GET", path := "/", queryStringParameters := [],
        headers := [("x-forwarded-for", "1.2.3.4")], multiValueHeaders := [],
        body := [], isBase64Encoded := false }).map
      (fun q => q.remoteAddr) = some "" ∧
    (albCanonize trivialGoLib
      { httpMethod := "GET", path := "/", queryStringParameters := [],
        headers := [("x-forwarded-for", "1.2.3.4")], multiValueHeaders := [],
        body := [], isBase64Encoded := false }).map
      (fun q => headerGet q.header "x-forwarded-for") = some "1.2.3.4" := by
  decide

/-- C9 as amended: the gateway formats take the remote address from their
own request-context identity/HTTP source-IP field; the load-balancer
format takes the first comma-separated address of the first value of the
multi-value header map's exact lowercase `"x-forwarded-for"` entry when
that entry is present and non-empty, and leaves the remote address empty
otherwise (in particular when the forwarded-for header sits only in the
single-value header map). -/
theorem canonical_remote_address_sources (lib : GoLib)
    (r2 : APIGatewayV2Request) (q2 : HTTPRequest)
    (r1 : APIGatewayV1Request) (q1 : HTTPRequest)
    (ra : ALBRequest) (qa : HTTPRequest)
    (h2 : apiGatewayV2Canonize lib r2 = some q2)
    (h1 : apiGatewayV1Canonize lib r1 = some q1)
    (ha : albCanonize lib ra = some qa) :
    q2.remoteAddr = r2.requestContext.http.sourceIP ∧
    q1.remoteAddr = r1.requestContext.identity.sourceIP ∧
    qa.remoteAddr =
      (match headerFind ra.multiValueHeaders "x-forwarded-for" with
       | some (v :: _) => beforeFirstComma v
       | some [] => ""
       | none => "") := by
  refine ⟨?_, ?_, ?_⟩
  · simp only [apiGatewayV2Canonize] at h2
    split at h2
    · exact absurd h2 (by simp)
    · split at h2
      · exact absurd h2 (by simp)
      · simp only [Option.some.injEq] at h2
        subst h2
        rfl
  · simp only [apiGatewayV1Canonize] at h1
    split at h1
    · exact absurd h1 (by simp)
    · split at h1
      · exact absurd h1 (by simp)
      · simp only [Option.some.injEq] at h1
        subst h1
        rfl
  · have hqa : qa.remoteAddr = albSourceIPOf ra := by
      simp only [albCanonize] at ha
      split at ha
      · exact absurd ha (by simp)
      · split at ha
        · exact absurd ha (by simp)
        · simp only [Option.some.injEq] at ha
          subst ha
          rfl
    rw [hqa]
    unfold albSourceIPOf
    cases hx : headerFind ra.multiValueHeaders "x-forwarded-for" with
    | none => rfl
    | some xff =>
      cases xff with
      | nil => simp
      | cons v vs => simp

/-- Witness for `canonical_remote_address_sources`: concrete envelopes,
including an ALB envelope whose multi-value forwarded-for entry is
`"9.9.9.9, 8.8.8.8"`, giving remote address `"9.9.9.9"`. -/
theorem canonical_remote_address_sources_witness :
    apiGatewayV2Canonize trivialGoLib
      { rawPath := "/", rawQueryString := "", queryStringParameters := [],
        headers := [],
        requestContext := { http := { method := "GET", sourceIP := "5.6.7.8" } },
        body := [], isBase64Encoded := false } =
      some { method := "GET", host := "", urlPath := "/", rawQuery := "",
             header := [], remoteAddr := "5.6.7.8",
             bodyReader := .stringReader [] } ∧
    apiGatewayV1Canonize trivialGoLib
      { path := "/", httpMethod := "GET", headers := [], multiValueHeaders := [],
        queryStringParameters := [], multiValueQueryStringParameters := [],
        requestContext := { accountID := "a", identity := { sourceIP := "4.4.4.4" } },
        body := [], isBase64Encoded := false } =
      some { method := "GET", host := "", urlPath := "/", rawQuery := "",
             header := [], remoteAddr := "4.4.4.4",
             bodyReader := .stringReader [] } ∧
    albCanonize trivialGoLib
      { httpMethod := "GET", path := "/", queryStringParameters := [],
        headers := [],
        multiValueHeaders := [("x-forwarded-for", ["9.9.9.9, 8.8.8.8"])],
        body := [], isBase64Encoded := false } =
      some { method := "GET", host := "", urlPath := "/", rawQuery := "",
             header := [], remoteAddr := "9.9.9.9",
             bodyReader := .stringReader [] } ∧
    (({ method := "GET", host := "", urlPath := "/", rawQuery := "",
        header := [], remoteAddr := "5.6.7.8",
        bodyReader := .stringReader [] } : HTTPRequest).remoteAddr = "5.6.7.8" ∧
     ({ method := "GET", host := "", urlPath := "/", rawQuery := "",
        header := [], remoteAddr := "4.4.4.4",
        bodyReader := .stringReader [] } : HTTPRequest).remoteAddr = "4.4.4.4" ∧
     ({ method := "GET", host := "", urlPath := "/", rawQuery := "",
        header := [], remoteAddr := "9.9.9.9",
        bodyReader := .stringReader [] } : HTTPRequest).remoteAddr =
       (match headerFind [("x-forwarded-for", ["9.9.9.9, 8.8.8.8"])]
           "x-forwarded-for" with
        | some (v :: _) => beforeFirstComma v
        | some [] => ""
        | none => "")) :=
  ⟨by decide, by decide, by decide,
   canonical_remote_address_sources trivialGoLib
     { rawPath := "/", rawQueryString := "", queryStringParameters := [],
       headers := [],
       requestContext := { http := { method := "GET", sourceIP := "5.6.7.8" } },
       body := [], isBase64Encoded := false }
     { method := "GET", host := "", urlPath := "/", rawQuery := "",
       header := [], remoteAddr := "5.6.7.8", bodyReader := .stringReader [] }
     { path := "/", httpMethod := "GET", headers := [], multiValueHeaders := [],
       queryStringParameters := [], multiValueQueryStringParameters := [],
       requestContext := { accountID := "a", identity := { sourceIP := "4.4.4.4" } },
       body := [], isBase64Encoded := false }
     { method := "GET", host := "", urlPath := "/", rawQuery := "",
       header := [], remoteAddr := "4.4.4.4", bodyReader := .stringReader [] }
     { httpMethod := "GET", path := "/", queryStringParameters := [],
       headers := [],
       multiValueHeaders := [("x-forwarded-for", ["9.9.9.9, 8.8.8.8"])],
       body := [], isBase64Encoded := false }
     { method := "GET", host := "", urlPath := "/", rawQuery := "",
       header := [], remoteAddr := "9.9.9.9", bodyReader := .stringReader [] }
     (by decide) (by decide) (by decide)⟩

/-- Lookup after a cons unfolds to a comparison on the head entry. -/
theorem headerFind_cons (e : String × List String) (l : Header) (k : String) :
    headerFind (e :: l) k =
      if (e.1 == k) = true then some e.2 else headerFind l k := by
  unfold headerFind
  cases hek : (e.1 == k) <;> simp [List.find?_cons, hek]

/-- Map assignment stores exactly the assigned values under the key. -/
theorem headerFind_setRaw_self (h : Header) (k : String) (vs : List String) :
    headerFind (headerSetRaw h k vs) k = some vs := by
  induction h with
  | nil => simp [headerSetRaw, headerFind]
  | cons e rest ih =>
    by_cases hek : e.1 = k
    · simp [headerSetRaw, hek, headerFind_cons]
    · have hbe : (e.1 == k) = false := by simp [hek]
      simp [headerSetRaw, hbe, headerFind_cons, ih]

/-- Map assignment leaves every other key's entry unchanged. -/
theorem headerFind_setRaw_ne (h : Header) (k k' : String) (vs : List String)
    (hne : k' ≠ k) :
    headerFind (headerSetRaw h k vs) k' = headerFind h k' := by
  have hne' : ¬(k = k') := fun e => hne e.symm
  induction h with
  | nil =>
    have hbe : (k == k') = false := by simp [hne']
    simp [headerSetRaw, headerFind, hbe]
  | cons e rest ih =>
    by_cases hek : e.1 = k
    · have hbe : (k == k') = false := by simp [hne']
      have hbe2 : (e.1 == k') = false := by simp [hek, hne']
      simp [headerSetRaw, hek, headerFind_cons, hbe, hbe2]
    · have hbe : (e.1 == k) = false := by simp [hek]
      simp [headerSetRaw, hbe, headerFind_cons, ih]

/-- Appending a value under one key leaves every other key's entry alone. -/
theorem headerFind_addRaw_ne (h : Header) (k k' : String) (v : String)
    (hne : k' ≠ k) :
    headerFind (headerAddRaw h k v) k' = headerFind h k' := by
  have hne' : ¬(k = k') := fun e => hne e.symm
  induction h with
  | nil =>
    have hbe : (k == k') = false := by simp [hne']
    simp [headerAddRaw, headerFind, hbe]
  | cons e rest ih =>
    by_cases hek : e.1 = k
    · have hbe2 : (e.1 == k') = false := by simp [hek, hne']
      simp [headerAddRaw, hek, headerFind_cons, hbe2, hne']
    · have hbe : (e.1 == k) = false := by simp [hek]
      simp [headerAddRaw, hbe, headerFind_cons, ih]

/-- Appending a value under an absent key creates a singleton entry. -/
theorem headerFind_addRaw_absent (h : Header) (k : String) (v : String)
    (habs : headerFind h k = none) :
    headerFind (headerAddRaw h k v) k = some [v] := by
  induction h with
  | nil => simp [headerAddRaw, headerFind]
  | cons e rest ih =>
    by_cases hek : e.1 = k
    · rw [headerFind_cons] at habs
      simp [hek] at habs
    · have hbe : (e.1 == k) = false := by simp [hek]
      rw [headerFind_cons] at habs
      simp only [hbe] at habs
      simp [headerAddRaw, hbe, headerFind_cons, ih habs]

/-- A fold of map assignments over entries whose keys all differ from `k`
does not change the entry for `k`. -/
theorem foldl_setRaw_of_not_key (ms : List (String × List String))
    (h : Header) (k : String) (hnot : ∀ kv ∈ ms, kv.1 ≠ k) :
    headerFind (ms.foldl (fun h kv => headerSetRaw h kv.1 kv.2) h) k =
      headerFind h k := by
  induction ms generalizing h with
  | nil => rfl
  | cons kv rest ih =>
    rw [List.foldl_cons,
      ih _ (fun x hx => hnot x (List.mem_cons_of_mem _ hx)),
      headerFind_setRaw_ne _ _ _ _
        (fun e => hnot kv (List.mem_cons_self _ _) e.symm)]

/-- A fold of map assignments over key-distinct entries makes each entry's
key map to exactly that entry's values. -/
theorem foldl_setRaw_of_mem (ms : List (String × List String)) (h : Header)
    (k : String) (vs : List String)
    (hnodup : (ms.map Prod.fst).Nodup) (hmem : (k, vs) ∈ ms) :
    headerFind (ms.foldl (fun h kv => headerSetRaw h kv.1 kv.2) h) k =
      some vs := by
  induction ms generalizing h with
  | nil => cases hmem
  | cons kv rest ih =>
    rw [List.foldl_cons]
    rcases List.mem_cons.mp hmem with heq | hmemr
    · subst heq
      have hnot : ∀ x ∈ rest, x.1 ≠ k := by
        intro x hx hxk
        have hmm : x.1 ∈ rest.map Prod.fst := List.mem_map_of_mem Prod.fst hx
        exact (List.nodup_cons.mp hnodup).1 (hxk ▸ hmm)
      rw [foldl_setRaw_of_not_key _ _ _ hnot]
      exact headerFind_setRaw_self _ _ _
    · exact ih _ (List.nodup_cons.mp hnodup).2 hmemr

/-- A fold of canonicalizing adds over entries none of whose canonicalized
keys equal `k` does not change the entry for `k`. -/
theorem foldl_add_of_not_canon (ss : List (String × String)) (h : Header)
    (k : String) (hnot : ∀ kv ∈ ss, canonicalHeaderKey kv.1 ≠ k) :
    headerFind (ss.foldl (fun h kv => headerAdd h kv.1 kv.2) h) k =
      headerFind h k := by
  induction ss generalizing h with
  | nil => rfl
  | cons kv rest ih =>
    rw [List.foldl_cons,
      ih _ (fun x hx => hnot x (List.mem_cons_of_mem _ hx))]
    unfold headerAdd
    exact headerFind_addRaw_ne _ _ _ _
      (fun e => hnot kv (List.mem_cons_self _ _) e.symm)

/-- A fold of canonicalizing adds over key-distinct, already-canonical
entries makes each entry's key map to exactly its single value, provided
the key is absent from the accumulator. -/
theorem foldl_add_of_mem (ss : List (String × String)) (h : Header)
    (k : String) (v : String)
    (hcanon : ∀ kv ∈ ss, canonicalHeaderKey kv.1 = kv.1)
    (hnodup : (ss.map Prod.fst).Nodup) (hmem : (k, v) ∈ ss)
    (habs : headerFind h k = none) :
    headerFind (ss.foldl (fun h kv => headerAdd h kv.1 kv.2) h) k =
      some [v] := by
  induction ss generalizing h with
  | nil => cases hmem
  | cons kv rest ih =>
    rw [List.foldl_cons]
    rcases List.mem_cons.mp hmem with heq | hmemr
    · subst heq
      have hck : canonicalHeaderKey k = k := by
        simpa using hcanon (k, v) (List.mem_cons_self _ _)
      have hnot : ∀ x ∈ rest, canonicalHeaderKey x.1 ≠ k := by
        intro x hx hcx
        have hx1 : canonicalHeaderKey x.1 = x.1 :=
          hcanon x (List.mem_cons_of_mem _ hx)
        have hxk : x.1 = k := by rw [← hx1, hcx]
        have hmm : x.1 ∈ rest.map Prod.fst := List.mem_map_of_mem Prod.fst hx
        exact (List.nodup_cons.mp hnodup).1 (hxk ▸ hmm)
      rw [foldl_add_of_not_canon _ _ _ hnot]
      unfold headerAdd
      rw [hck]
      exact headerFind_addRaw_absent _ _ _ habs
    · have hkv1 : canonicalHeaderKey kv.1 = kv.1 :=
        hcanon kv (List.mem_cons_self _ _)
      have hne : k ≠ kv.1 := by
        intro hkk
        have hmm : k ∈ rest.map Prod.fst :=
          List.mem_map_of_mem Prod.fst hmemr
        exact (List.nodup_cons.mp hnodup).1 (hkk ▸ hmm)
      have habs2 : headerFind (headerAdd h kv.1 kv.2) k = none := by
        unfold headerAdd
        rw [hkv1, headerFind_addRaw_ne _ _ _ _ hne]
        exact habs
      exact ih _ (fun x hx => hcanon x (List.mem_cons_of_mem _ hx))
        (List.nodup_cons.mp hnodup).2 hmemr habs2

/-- C8 counterexample: for the non-canonical key `"x-k"` present in both
source maps, the merged multimap keeps the single-value entry under the
canonicalized spelling `"X-K"` — the multi-value entry does not replace it,
and a case-insensitive `Get` on the canonical request even answers with the
single value `"a"` rather than a multi-value one. -/
theorem v1_merge_noncanonical_key_keeps_single_value :
    ("X-K", ["a"]) ∈ headersFromV1 [("x-k", "a")] [("x-k", ["b", "c"])] ∧
    headerGet (headersFromV1 [("x-k", "a")] [("x-k", ["b", "c"])]) "x-k" =
      "a" := by
  decide

/-- C8 as amended: single-value headers are inserted under the
canonicalized form of their key, multi-value entries afterwards under their
key verbatim, replacing only an entry with that exact spelling; hence every
key of the multi-value map carries exactly that map's values under its
verbatim spelling, and a canonical-form single-value key not in the
multi-value map keeps its single value — but for a non-canonical key in
both maps the single value survives under the canonicalized spelling. -/
theorem v1_header_merge_semantics (singles : List (String × String))
    (multis : List (String × List String))
    (hcanon : ∀ kv ∈ singles, canonicalHeaderKey kv.1 = kv.1)
    (hsn : (singles.map Prod.fst).Nodup)
    (hmn : (multis.map Prod.fst).Nodup) :
    (∀ k vs, (k, vs) ∈ multis →
      headerFind (headersFromV1 singles multis) k = some vs) ∧
    (∀ k v, (k, v) ∈ singles → k ∉ multis.map Prod.fst →
      headerFind (headersFromV1 singles multis) k = some [v]) := by
  constructor
  · intro k vs hmem
    unfold headersFromV1
    exact foldl_setRaw_of_mem _ _ _ _ hmn hmem
  · intro k v hmem hnmem
    unfold headersFromV1
    have hnot : ∀ x ∈ multis, x.1 ≠ k := by
      intro x hx hxk
      have hmm : x.1 ∈ multis.map Prod.fst := List.mem_map_of_mem Prod.fst hx
      exact hnmem (hxk ▸ hmm)
    rw [foldl_setRaw_of_not_key _ _ _ hnot]
    unfold headersFromSingles
    exact foldl_add_of_mem _ _ _ _ hcanon hsn hmem rfl

/-- Witness for `v1_header_merge_semantics` on a concrete envelope whose
single-value map holds `Host` and whose multi-value map holds `X-M`. -/
theorem v1_header_merge_semantics_witness :
    (∀ kv ∈ [("Host", "h")], canonicalHeaderKey kv.1 = kv.1) ∧
    ((([("Host", "h")] : List (String × String)).map Prod.fst).Nodup) ∧
    ((([("X-M", ["1", "2"])] : List (String × List String)).map Prod.fst).Nodup) ∧
    ((∀ k vs, (k, vs) ∈ [("X-M", ["1", "2"])] →
       headerFind (headersFromV1 [("Host", "h")] [("X-M", ["1", "2"])]) k =
         some vs) ∧
     (∀ k v, (k, v) ∈ [("Host", "h")] →
       k ∉ ([("X-M", ["1", "2"])] : List (String × List String)).map Prod.fst →
       headerFind (headersFromV1 [("Host", "h")] [("X-M", ["1", "2"])]) k =
         some [v])) :=
  ⟨by decide, by decide, by decide,
   v1_header_merge_semantics [("Host", "h")] [("X-M", ["1", "2"])]
     (by decide) (by decide) (by decide)⟩

end HTTPBridge
